import Mathlib

/-!
# SlimeHive — verification of the Swarm Field & Behavior Engine spec

Shallow embedding of the SlimeHive repository (files `queen_brain.py` and
`simulate.py`) in Lean 4, together with proofs and refutations of the
frozen claims about the natural-language specification.

Modelling conventions:
* Python floats are modelled as `ℚ` (all constants involved are exact
  decimals, and no claim depends on float rounding).
* Python `dict`s are modelled either as association lists (when the code
  iterates over them, preserving insertion order) or as functions to
  `Option` (when only keyed lookup/update is used).
* Python `int(...)` truncation of a float is `pyInt` below.
* Randomness (`random.random()`, `np.random.*`) is made explicit: each
  random draw becomes a parameter of the embedded function.
-/

namespace SlimeHive

/-! ## Position estimator (`queen_brain.calculate_gravity_position`) -/

/-- `GRID_SIZE = 100` in `queen_brain.py`. -/
def GRID_SIZE : ℤ := 100

/-- `SENSOR_POSITIONS` from `queen_brain.py`: the two anchor sensors and
their fixed grid coordinates.  Lookup of a sensor name, `none` for names
that are not anchors (the Python code tests `sensor in SENSOR_POSITIONS`). -/
def sensorPosition (s : String) : Option (ℤ × ℤ) :=
  if s = "QUEEN" then some (10, 10)
  else if s = "SENTINEL" then some (90, 90)
  else none

/-- Python `int(q)` for a float `q`: truncation toward zero. -/
def pyInt (q : ℚ) : ℤ := if 0 ≤ q then ⌊q⌋ else -⌊-q⌋

/-- Average of an RSSI sample list: `sum(rssi_list) / len(rssi_list)`. -/
def avgRssi (l : List ℤ) : ℚ := (l.sum : ℚ) / (l.length : ℚ)

/-- The weight of one sensor's sample buffer:
`weight = (100 + avg_rssi) / 100.0`, clamped below at `0.01`. -/
def weightOf (l : List ℤ) : ℚ :=
  let w := (100 + avgRssi l) / 100
  if w < 1/100 then 1/100 else w

/-- Accumulator of the loop in `calculate_gravity_position`. -/
structure GravAcc where
  totalWeight : ℚ
  wSumX : ℚ
  wSumY : ℚ
  sensorCount : ℕ
deriving DecidableEq

/-- One iteration of the sensor loop in `calculate_gravity_position`:
skip non-anchor keys and empty sample lists, otherwise accumulate the
weighted anchor coordinates. -/
def gravStep (acc : GravAcc) (entry : String × List ℤ) : GravAcc :=
  match sensorPosition entry.1 with
  | none => acc
  | some (px, py) =>
    if entry.2 = [] then acc
    else
      let w := weightOf entry.2
      { totalWeight := acc.totalWeight + w
        wSumX := acc.wSumX + px * w
        wSumY := acc.wSumY + py * w
        sensorCount := acc.sensorCount + 1 }

/-- The sensor loop of `calculate_gravity_position`, folded over the
per-drone buffer (an insertion-ordered association list from sensor name
to its bounded RSSI sample list; the `"last_update"` timestamp is kept
separately in `DroneBuf`, mirroring the `continue` on that key). -/
def gravFold (buf : List (String × List ℤ)) : GravAcc :=
  buf.foldl gravStep ⟨0, 0, 0, 0⟩

/-- `calculate_gravity_position` from `queen_brain.py`: the weighted
center of gravity of the anchor positions, `none` when no sensor
contributed (`total_weight > 0 and sensor_count > 0` fails). -/
def calculate_gravity_position (buf : List (String × List ℤ)) :
    Option (ℤ × ℤ × ℕ) :=
  let acc := gravFold buf
  if 0 < acc.totalWeight ∧ 0 < acc.sensorCount then
    some (pyInt (acc.wSumX / acc.totalWeight),
          pyInt (acc.wSumY / acc.totalWeight),
          acc.sensorCount)
  else none

/-- Number of anchors contributing to the estimate (the `sensor_count`
of the loop). -/
def contributingCount (buf : List (String × List ℤ)) : ℕ :=
  (gravFold buf).sensorCount

example : calculate_gravity_position [("QUEEN", [-50]), ("SENTINEL", [-50])]
    = some (50, 50, 2) := by
  norm_num +decide [calculate_gravity_position, gravFold, gravStep,
    sensorPosition, weightOf, avgRssi, pyInt, Int.floor_eq_iff]

example : calculate_gravity_position [("QUEEN", [-50])] = some (10, 10, 1) := by
  norm_num +decide [calculate_gravity_position, gravFold, gravStep,
    sensorPosition, weightOf, avgRssi, pyInt, Int.floor_eq_iff]

example : calculate_gravity_position [("UNKNOWN", [-50])] = none := by
  norm_num +decide [calculate_gravity_position, gravFold, gravStep,
    sensorPosition]

/-! ## Deposit decoder (`queen_brain.on_message`, topic `hive/deposit`) -/

/-- Python `payload.split(',')` at the character level. -/
def splitComma : List Char → List (List Char)
  | [] => [[]]
  | c :: rest =>
    match splitComma rest with
    | [] => [[c]]
    | h :: t => if c = ',' then [] :: h :: t else (c :: h) :: t

/-- Value of a decimal digit character, `none` for non-digits. -/
def digitVal (c : Char) : Option ℕ :=
  if '0' ≤ c ∧ c ≤ '9' then some (c.toNat - '0'.toNat) else none

/-- Decimal numeral parsing used by `pyParseInt`. -/
def natOfDigits (cs : List Char) : Option ℕ :=
  if cs = [] then none
  else cs.foldl
    (fun acc c => acc.bind (fun a => (digitVal c).map (fun d => a * 10 + d)))
    (some 0)

/-- Python `int(field)` on a payload field: an optionally signed decimal
numeral, `none` when `int` would raise `ValueError` (which makes
`on_message` drop the whole message).  Python additionally tolerates
surrounding whitespace and `_` separators; the payloads of this
repository use plain numerals. -/
def pyParseInt (cs : List Char) : Option ℤ :=
  match cs with
  | '-' :: rest => (natOfDigits rest).map (fun n => -(n : ℤ))
  | '+' :: rest => (natOfDigits rest).map (fun n => (n : ℤ))
  | _ => (natOfDigits cs).map (fun n => (n : ℤ))

/-- The canonical deposit event produced by the decoder part of
`on_message`: `EAR_ID, ID, X, Y, INT, RSSI`. -/
structure DepositEvent where
  earId : String
  droneId : String
  x : ℤ
  y : ℤ
  intensity : ℤ
  rssi : ℤ
deriving DecidableEq

/-- Field-count dispatch of `on_message` on `hive/deposit`:
6 fields are `EAR_ID, ID, X, Y, INT, RSSI`; 5 fields are
`ID, X, Y, INT, RSSI` with `ear_id` left at its default `"UNKNOWN"`;
any other field count falls through to `return` (message dropped). -/
def decodeParts (parts : List (List Char)) : Option DepositEvent :=
  match parts with
  | [e, d, sx, sy, si, sr] =>
    (pyParseInt sx).bind fun x =>
    (pyParseInt sy).bind fun y =>
    (pyParseInt si).bind fun i =>
    (pyParseInt sr).map fun r =>
      ⟨⟨e⟩, ⟨d⟩, x, y, i, r⟩
  | [d, sx, sy, si, sr] =>
    (pyParseInt sx).bind fun x =>
    (pyParseInt sy).bind fun y =>
    (pyParseInt si).bind fun i =>
    (pyParseInt sr).map fun r =>
      ⟨"UNKNOWN", ⟨d⟩, x, y, i, r⟩
  | _ => none

/-- The full deposit decoder: split the payload on commas, then decode by
field count. -/
def decodeDeposit (payload : String) : Option DepositEvent :=
  decodeParts (splitComma payload.data)

example : decodeDeposit "A1,5,5,50,-40" = some ⟨"UNKNOWN", "A1", 5, 5, 50, -40⟩ := by
  decide

example : decodeDeposit "QUEEN,A1,5,5,50,-40" = some ⟨"QUEEN", "A1", 5, 5, 50, -40⟩ := by
  decide

/-! ## The hive state machine (`queen_brain.py` globals and handlers) -/

/-- The per-drone RSSI buffer `rssi_buffer[drone_id]`: the sensor-keyed
sample lists (insertion-ordered, as a Python dict iterates) plus the
`"last_update"` timestamp that lives in the same dict. -/
structure DroneBuf where
  sensors : List (String × List ℤ)
  lastUpdate : ℚ
deriving DecidableEq

/-- Append a sample and keep at most the 5 most recent
(`append` then `pop(0)` when the length exceeds 5). -/
def pushSample (l : List ℤ) (r : ℤ) : List ℤ :=
  let l2 := l ++ [r]
  if 5 < l2.length then l2.tail else l2

/-- Insert a sample into the sensor-keyed buffer: a new sensor key is
appended (Python dict insertion order); an existing key gets the sample
pushed into its bounded list. -/
def addSensorSample (sensors : List (String × List ℤ)) (ear : String) (r : ℤ) :
    List (String × List ℤ) :=
  if sensors.any (fun e => e.1 = ear) then
    sensors.map (fun e => if e.1 = ear then (e.1, pushSample e.2 r) else e)
  else sensors ++ [(ear, [r])]

/-- An entry of `active_drones` (the `last_seen` wall-clock value is the
`now` passed to the handler; the bounded trail mirrors the Python list). -/
structure DroneRec where
  x : ℤ
  y : ℤ
  rssi : ℤ
  lastSeen : ℚ
  trail : List (ℤ × ℤ)
deriving DecidableEq

/-- The mutable global state of `queen_brain.py` touched by the deposit
path: the two grids, the drone registry and the RSSI buffers. -/
structure QueenState where
  hive : ℤ × ℤ → ℚ
  ghost : ℤ × ℤ → ℚ
  drones : String → Option DroneRec
  buffers : String → Option DroneBuf

/-- The all-zero initial state (`np.zeros`, empty dicts). -/
def initState : QueenState where
  hive := fun _ => 0
  ghost := fun _ => 0
  drones := fun _ => none
  buffers := fun _ => none

/-- The upper clamp `if grid[x][y] > 255: grid[x][y] = 255`. -/
def clamp255 (v : ℚ) : ℚ := if 255 < v then 255 else v

/-- Unconditional pheromone deposit at one cell: `hive += amount` and
`ghost += 0.5`, each clamped above at 255. -/
def depositCell (s : QueenState) (x y : ℤ) (amount : ℚ) : QueenState :=
  { s with
    hive := fun c => if c = (x, y) then clamp255 (s.hive (x, y) + amount) else s.hive c
    ghost := fun c => if c = (x, y) then clamp255 (s.ghost (x, y) + 1/2) else s.ghost c }

/-- The guarded deposit of `on_message`: only when
`0 <= x < GRID_SIZE and 0 <= y < GRID_SIZE`. -/
def depositGrids (s : QueenState) (x y : ℤ) (amount : ℚ) : QueenState :=
  if 0 ≤ x ∧ x < GRID_SIZE ∧ 0 ≤ y ∧ y < GRID_SIZE then depositCell s x y amount
  else s

/-- Trail push with cap 10 (`append` then `pop(0)`). -/
def pushTrail (t : List (ℤ × ℤ)) (p : ℤ × ℤ) : List (ℤ × ℤ) :=
  let t2 := t ++ [p]
  if 10 < t2.length then t2.tail else t2

/-- The RSSI buffer of `ev.droneId` right after the sample insertion of
`on_message` (its `last_update` is set to the current wall clock). -/
def bufferAfter (s : QueenState) (ev : DepositEvent) (now : ℚ) : DroneBuf :=
  ⟨addSensorSample ((s.buffers ev.droneId).getD ⟨[], 0⟩).sensors ev.earId ev.rssi,
   now⟩

/-- The coordinate recorded for the drone: the gravity estimate (clamped
to the grid) when it exists and at least two sensors contributed,
otherwise the self-reported payload coordinate. -/
def resolvedPos (s : QueenState) (ev : DepositEvent) (now : ℚ) : ℤ × ℤ :=
  if now - (bufferAfter s ev now).lastUpdate < 2 then
    match calculate_gravity_position (bufferAfter s ev now).sensors with
    | some (tx, ty, c) =>
      if 2 ≤ c then
        (max 0 (min (GRID_SIZE - 1) tx), max 0 (min (GRID_SIZE - 1) ty))
      else (ev.x, ev.y)
    | none => (ev.x, ev.y)
  else (ev.x, ev.y)

/-- The `hive/deposit` branch of `on_message` after decoding, at wall
clock `now`: update the RSSI buffer, maybe override the self-reported
coordinate by the gravity estimate (only with `s_count >= 2`), upsert the
drone registry and deposit pheromones at the resolved cell.  The
freshness test `time.time() - rssi_buffer[id]["last_update"] < 2.0` of
the Python code is kept in `resolvedPos` even though `last_update` was
set to `time.time()` on the previous line. -/
def processDeposit (s : QueenState) (ev : DepositEvent) (now : ℚ) : QueenState :=
  let buf1 := bufferAfter s ev now
  let p := resolvedPos s ev now
  let oldTrail := ((s.drones ev.droneId).map DroneRec.trail).getD []
  let s1 : QueenState :=
    { s with
      buffers := fun k => if k = ev.droneId then some buf1 else s.buffers k
      drones := fun k =>
        if k = ev.droneId then some ⟨p.1, p.2, ev.rssi, now, pushTrail oldTrail p⟩
        else s.drones k }
  depositGrids s1 p.1 p.2 ((ev.intensity : ℚ) / 10)

/-- The operations that touch the grids: a decoded `hive/deposit`
message, a virtual-drone move-and-deposit from `physics_loop` (its
coordinates already clamped to the operational boundary, intensity 50),
and the decay step `hive_grid *= DECAY_RATE` of `physics_loop`. -/
inductive QOp where
  | msg (payload : String) (now : ℚ)
  | virtualMove (x y : ℤ)
  | tick (rate : ℚ)

/-- Clamp to the operational boundary `[10, 90]` (physics_loop lines
457–458). -/
def clampBoundary (v : ℤ) : ℤ := max 10 (min 90 v)

/-- One state-machine step. A `msg` whose payload fails to decode is
dropped (`return` / `ValueError`). A virtual move deposits intensity 50
at the boundary-clamped cell. A tick multiplies every Active cell by the
decay rate and leaves Ghost untouched. -/
def runOp (s : QueenState) : QOp → QueenState
  | .msg payload now =>
    match decodeDeposit payload with
    | some ev => processDeposit s ev now
    | none => s
  | .virtualMove x y =>
    depositCell s (clampBoundary x) (clampBoundary y) ((50 : ℚ) / 10)
  | .tick rate => { s with hive := fun c => s.hive c * rate }

/-- Run a sequence of operations. -/
def runOps (s : QueenState) (ops : List QOp) : QueenState := ops.foldl runOp s

/-- All wall-clock times at which some operation of the trace delivered a
sample from anchor `ear` for drone `droneId`.  This is trace-level
bookkeeping used only to state staleness claims; the Python code keeps no
per-anchor timestamp at all. -/
def earTimes (ops : List QOp) (droneId ear : String) : List ℚ :=
  ops.filterMap fun op =>
    match op with
    | .msg payload t =>
      match decodeDeposit payload with
      | some ev => if ev.droneId = droneId ∧ ev.earId = ear then some t else none
      | none => none
    | _ => none

/-- Whether drone `droneId` was heard via anchor `ear` within the last
two seconds before `tEnd` (the spec's freshness window). -/
def heardWithin2s (ops : List QOp) (droneId ear : String) (tEnd : ℚ) : Prop :=
  ∃ t ∈ earTimes ops droneId ear, tEnd - t ≤ 2

instance (ops : List QOp) (droneId ear : String) (tEnd : ℚ) :
    Decidable (heardWithin2s ops droneId ear tEnd) :=
  List.decidableBEx _ (earTimes ops droneId ear)

/-- How many of the two anchors have fresh (≤ 2 s old) samples for the
drone at time `tEnd`. -/
def freshAnchorCount (ops : List QOp) (droneId : String) (tEnd : ℚ) : ℕ :=
  (if heardWithin2s ops droneId "QUEEN" tEnd then 1 else 0) +
  (if heardWithin2s ops droneId "SENTINEL" tEnd then 1 else 0)

/-! ## `simulate.py` — FEED_QUEEN delivery movement -/

/-- The queen anchor of `simulate.py` (`config["queen"]` defaults
`(10, 10)`). -/
def queenPos : ℤ × ℤ := (10, 10)

/-- `int(np.sign(v))` on an integer. -/
def signZ (z : ℤ) : ℤ := if 0 < z then 1 else if z < 0 then -1 else 0

/-- The clamp of `update_drone`:
`max(self.margin, min(self.grid_size - self.margin, v))` with the default
margin 10 and grid size 100. -/
def clampMargin (v : ℤ) : ℤ := max 10 (min 90 v)

/-- A food source (`Simulation.food_sources` entry), the fields used by
`is_inside_food`. -/
structure FoodSource where
  x : ℤ
  y : ℤ
  radius : ℚ
  consumed : Bool
deriving DecidableEq

/-- `Simulation.is_inside_food`: strictly inside some unconsumed food
source.  Python compares `sqrt(dx² + dy²) < radius`; stated on squares
(equivalent for the positive radii the configuration produces). -/
def isInsideFood (foods : List FoodSource) (x y : ℤ) : Prop :=
  ∃ f ∈ foods, f.consumed = false ∧
    (((f.x - x) ^ 2 + (f.y - y) ^ 2 : ℤ) : ℚ) < f.radius ^ 2

instance (foods : List FoodSource) (x y : ℤ) : Decidable (isInsideFood foods x y) :=
  List.decidableBEx _ foods

/-- The hard-priority branch of `Simulation.calculate_movement` for a
drone with `state == "carrying"` when `FEED_QUEEN` is among the behavior
modes: step by the sign of the vector to the queen.  The 10% random
perturbation is explicit: `jitter = none` when the
`np.random.random() < 0.1` draw fails, `some (jx, jy)` with the two
`np.random.choice([-1, 0, 1])` draws when it fires. -/
def carryingStep (p : ℤ × ℤ) (jitter : Option (ℤ × ℤ)) : ℤ × ℤ :=
  let dirx := queenPos.1 - p.1
  let diry := queenPos.2 - p.2
  let dx := if dirx ≠ 0 then signZ dirx else 0
  let dy := if diry ≠ 0 then signZ diry else 0
  match jitter with
  | none => (dx, dy)
  | some (jx, jy) =>
    let dx2 := dx + jx
    let dy2 := dy + jy
    ((if dx2 ≠ 0 then signZ dx2 else 0), (if dy2 ≠ 0 then signZ dy2 else 0))

/-- The position part of `Simulation.update_drone` for a carrying
FEED_QUEEN drone: clamp the step target to the boundary, and if it lands
inside a food footprint retry x-only, then y-only, then hold in place.
The tick-level gates that skip movement entirely (starvation freeze,
`move_probability`) leave the position unchanged and are outside this
function. -/
def updateCarryingPos (foods : List FoodSource) (p : ℤ × ℤ)
    (jitter : Option (ℤ × ℤ)) : ℤ × ℤ :=
  let m := carryingStep p jitter
  let nx := clampMargin (p.1 + m.1)
  let ny := clampMargin (p.2 + m.2)
  if isInsideFood foods nx ny then
    if ¬ isInsideFood foods (p.1 + m.1) p.2 then (clampMargin (p.1 + m.1), p.2)
    else if ¬ isInsideFood foods p.1 (p.2 + m.2) then (p.1, clampMargin (p.2 + m.2))
    else p
  else (nx, ny)

/-- Squared Euclidean distance between two cells.  The Euclidean distance
of the claims strictly decreases exactly when this does. -/
def distSq (a b : ℤ × ℤ) : ℤ := (a.1 - b.1) ^ 2 + (a.2 - b.2) ^ 2

/-! ## `simulate.py` — death and respawn -/

/-- A drone record of `Simulation.drones`, the fields written by the
respawn branch of `tick` (trail and `last_seen` omitted: the respawn
record resets them to empty/now). -/
structure SimDrone where
  x : ℤ
  y : ℤ
  vx : ℤ
  vy : ℤ
  hunger : ℤ
  maxHunger : ℤ
  type : String
  state : String
  carrying : ℚ
  hopCooldown : Option ℤ
deriving DecidableEq

/-- The state a respawned drone is reset to:
`"scouting" if drone_type == "hopper" else "searching"`. -/
def defaultState (t : String) : String :=
  if t = "hopper" then "scouting" else "searching"

/-- The replacement record built by the `death_mode == "respawn"` branch
of `Simulation.tick`; `jx`, `jy` are the `np.random.randint(-2, 3)`
draws (each in `[-2, 2]`). -/
def respawnDrone (d : SimDrone) (jx jy : ℤ) : SimDrone :=
  { x := queenPos.1 + jx
    y := queenPos.2 + jy
    vx := 0
    vy := 0
    hunger := 100
    maxHunger := 100
    type := d.type
    state := defaultState d.type
    carrying := 0
    hopCooldown := if d.type = "hopper" then some 0 else none }

/-- The death/respawn pass at the start of `Simulation.tick` under
`death_mode = "respawn"` with hunger enabled: every drone whose hunger
has reached 0 is replaced in the registry (same id, insertion order
kept) by a fresh record at the queen; `j` supplies the per-drone jitter
draws. -/
def respawnPhase (ds : List (String × SimDrone)) (j : String → ℤ × ℤ) :
    List (String × SimDrone) :=
  ds.map fun e =>
    if e.2.hunger ≤ 0 then (e.1, respawnDrone e.2 (j e.1).1 (j e.1).2) else e

/-! ## Spec-level predicates -/

/-- Every cell of both grids lies in `[0, 255]` (the spec's grid-value
domain). -/
def GridsInRange (s : QueenState) : Prop :=
  ∀ c, (0 ≤ s.hive c ∧ s.hive c ≤ 255) ∧ (0 ≤ s.ghost c ∧ s.ghost c ≤ 255)

/-- Side conditions under which the grid-range invariant holds: deposit
messages carry a nonnegative intensity, and decay rates lie in `[0, 1]`
(the engine only ever uses 0.95 and 0.60). -/
def opOK : QOp → Prop
  | .msg p _ => ∀ ev, decodeDeposit p = some ev → 0 ≤ ev.intensity
  | .virtualMove _ _ => True
  | .tick r => 0 ≤ r ∧ r ≤ 1

/-- Invariant of the estimator loop accumulator: the weighted coordinate
sums stay between 10× and 90× the total weight (the anchor x and y
coordinates are 10 and 90), and the total weight is nonnegative. -/
def accOK (a : GravAcc) : Prop :=
  0 ≤ a.totalWeight ∧
  10 * a.totalWeight ≤ a.wSumX ∧ a.wSumX ≤ 90 * a.totalWeight ∧
  10 * a.totalWeight ≤ a.wSumY ∧ a.wSumY ≤ 90 * a.totalWeight

/-! ## Helper lemmas -/

theorem weightOf_pos (l : List ℤ) : 0 < weightOf l := by
  unfold weightOf
  dsimp only
  split
  · norm_num
  · rename_i h
    push_neg at h
    linarith

theorem pyInt_intCast (z : ℤ) : pyInt (z : ℚ) = z := by
  unfold pyInt
  split
  · exact Int.floor_intCast z
  · rw [show -(z : ℚ) = ((-z : ℤ) : ℚ) by push_cast; ring, Int.floor_intCast]
    ring

theorem le_pyInt {a : ℤ} {q : ℚ} (h0 : 0 ≤ q) (h : (a : ℚ) ≤ q) :
    a ≤ pyInt q := by
  unfold pyInt
  rw [if_pos h0]
  exact Int.le_floor.mpr h

theorem pyInt_le {b : ℤ} {q : ℚ} (h0 : 0 ≤ q) (h : q ≤ (b : ℚ)) :
    pyInt q ≤ b := by
  unfold pyInt
  rw [if_pos h0]
  calc ⌊q⌋ ≤ ⌊((b : ℤ) : ℚ)⌋ := Int.floor_mono h
  _ = b := Int.floor_intCast b

theorem clamp255_le (v : ℚ) : clamp255 v ≤ 255 := by
  unfold clamp255; split <;> linarith

theorem clamp255_nonneg {v : ℚ} (h : 0 ≤ v) : 0 ≤ clamp255 v := by
  unfold clamp255; split <;> linarith

theorem le_clamp255 {w v : ℚ} (hw : w ≤ 255) (hv : w ≤ v) : w ≤ clamp255 v := by
  unfold clamp255; split <;> linarith

theorem depositCell_hive (s : QueenState) (x y : ℤ) (a : ℚ) (c : ℤ × ℤ) :
    (depositCell s x y a).hive c =
      if c = (x, y) then clamp255 (s.hive (x, y) + a) else s.hive c := rfl

theorem depositCell_ghost (s : QueenState) (x y : ℤ) (a : ℚ) (c : ℤ × ℤ) :
    (depositCell s x y a).ghost c =
      if c = (x, y) then clamp255 (s.ghost (x, y) + 1/2) else s.ghost c := rfl

theorem processDeposit_hive (s : QueenState) (ev : DepositEvent) (now : ℚ)
    (c : ℤ × ℤ) :
    (processDeposit s ev now).hive c =
      (depositGrids s (resolvedPos s ev now).1 (resolvedPos s ev now).2
        ((ev.intensity : ℚ) / 10)).hive c := by
  simp only [processDeposit, depositGrids]
  split <;> rfl

theorem processDeposit_ghost (s : QueenState) (ev : DepositEvent) (now : ℚ)
    (c : ℤ × ℤ) :
    (processDeposit s ev now).ghost c =
      (depositGrids s (resolvedPos s ev now).1 (resolvedPos s ev now).2
        ((ev.intensity : ℚ) / 10)).ghost c := by
  simp only [processDeposit, depositGrids]
  split <;> rfl

theorem depositCell_inv {s : QueenState} (h : GridsInRange s) {a : ℚ}
    (ha : 0 ≤ a) (x y : ℤ) : GridsInRange (depositCell s x y a) := by
  intro c
  obtain ⟨⟨h1, h2⟩, h3, h4⟩ := h c
  obtain ⟨⟨g1, g2⟩, g3, g4⟩ := h (x, y)
  rw [GridsInRange] at *
  constructor
  · rw [depositCell_hive]
    split
    · exact ⟨clamp255_nonneg (by linarith), clamp255_le _⟩
    · exact ⟨h1, h2⟩
  · rw [depositCell_ghost]
    split
    · exact ⟨clamp255_nonneg (by linarith), clamp255_le _⟩
    · exact ⟨h3, h4⟩

theorem depositGrids_inv {s : QueenState} (h : GridsInRange s) {a : ℚ}
    (ha : 0 ≤ a) (x y : ℤ) : GridsInRange (depositGrids s x y a) := by
  unfold depositGrids
  split
  · exact depositCell_inv h ha x y
  · exact h

theorem processDeposit_inv {s : QueenState} (h : GridsInRange s)
    {ev : DepositEvent} (ha : 0 ≤ ev.intensity) (now : ℚ) :
    GridsInRange (processDeposit s ev now) := by
  have ha' : (0 : ℚ) ≤ (ev.intensity : ℚ) / 10 := by
    have : (0 : ℚ) ≤ (ev.intensity : ℚ) := by exact_mod_cast ha
    linarith
  intro c
  rw [processDeposit_hive, processDeposit_ghost]
  exact depositGrids_inv h ha' _ _ c

theorem runOp_inv {s : QueenState} (h : GridsInRange s) {op : QOp}
    (hop : opOK op) : GridsInRange (runOp s op) := by
  cases op with
  | msg p now =>
    rw [runOp]
    cases hdec : decodeDeposit p with
    | none => exact h
    | some ev => exact processDeposit_inv h (hop ev hdec) now
  | virtualMove x y =>
    rw [runOp]
    exact depositCell_inv h (by norm_num) _ _
  | tick r =>
    intro c
    obtain ⟨⟨h1, h2⟩, hg⟩ := h c
    refine ⟨⟨mul_nonneg h1 hop.1, ?_⟩, hg⟩
    calc s.hive c * r ≤ s.hive c * 1 := mul_le_mul_of_nonneg_left hop.2 h1
    _ = s.hive c := mul_one _
    _ ≤ 255 := h2

theorem runOps_inv {s : QueenState} (h : GridsInRange s) {ops : List QOp}
    (hops : ∀ op ∈ ops, opOK op) : GridsInRange (runOps s ops) := by
  induction ops generalizing s with
  | nil => exact h
  | cons op rest ih =>
    exact ih (runOp_inv h (hops op (List.mem_cons_self op rest)))
      (fun o ho => hops o (List.mem_cons_of_mem op ho))

theorem initState_inv : GridsInRange initState := by
  intro c
  norm_num [initState]

/-! ## C1 — grid cells stay in [0, 255] -/

/-- C1 counterexample: the claim quantifies over every sequence of
deposit/tick operations, but a single decoded deposit carrying a negative
intensity (which the wire format admits: every field goes through
`int(...)` with no sign check) drives an Active cell to −1, below the
claimed lower bound 0.  The deposit clamp in `on_message` only caps
values above 255 and never enforces 0 from below. -/
theorem C1_counterexample_negative_intensity :
    ¬ (0 ≤ (runOps initState [QOp.msg "A,5,5,-10,-50" 0]).hive (5, 5)) := by
  have hdec : decodeDeposit "A,5,5,-10,-50" = some ⟨"UNKNOWN", "A", 5, 5, -10, -50⟩ := by
    decide
  have hgrav : calculate_gravity_position [("UNKNOWN", [(-50 : ℤ)])] = none := by
    norm_num +decide [calculate_gravity_position, gravFold, gravStep, sensorPosition]
  simp only [runOps, List.foldl, runOp, hdec]
  rw [processDeposit_hive]
  have hpos : resolvedPos initState ⟨"UNKNOWN", "A", 5, 5, -10, -50⟩ 0 = (5, 5) := by
    norm_num [resolvedPos, bufferAfter, initState, addSensorSample, hgrav]
  rw [hpos]
  norm_num [depositGrids, depositCell, clamp255, GRID_SIZE, initState]

/-- C1 (amended): for every sequence of deposit and tick operations whose
deposit intensities are nonnegative and whose decay rates lie in `[0, 1]`
(as the engine's own rates 0.95/0.60 do), starting from the all-zero
grids, every cell of both the Active and the Ghost grid stays within
`[0, 255]`.  The Ghost bound needs no intensity hypothesis (its increment
is the constant 0.5), the Active lower bound does. -/
theorem C1_grid_bounds (ops : List QOp) (hops : ∀ op ∈ ops, opOK op) :
    ∀ c, (0 ≤ (runOps initState ops).hive c ∧ (runOps initState ops).hive c ≤ 255) ∧
      (0 ≤ (runOps initState ops).ghost c ∧ (runOps initState ops).ghost c ≤ 255) :=
  runOps_inv initState_inv hops

theorem C1_grid_bounds_witness :
    (0 ≤ (runOps initState
        [QOp.msg "A1,5,5,50,-40" 0, QOp.virtualMove 20 20, QOp.tick (19/20)]).hive (5, 5) ∧
      (runOps initState
        [QOp.msg "A1,5,5,50,-40" 0, QOp.virtualMove 20 20, QOp.tick (19/20)]).hive (5, 5) ≤ 255) ∧
      (0 ≤ (runOps initState
        [QOp.msg "A1,5,5,50,-40" 0, QOp.virtualMove 20 20, QOp.tick (19/20)]).ghost (5, 5) ∧
      (runOps initState
        [QOp.msg "A1,5,5,50,-40" 0, QOp.virtualMove 20 20, QOp.tick (19/20)]).ghost (5, 5) ≤ 255) := by
  apply C1_grid_bounds
  intro op hop
  fin_cases hop
  · intro ev hdec
    have h : decodeDeposit "A1,5,5,50,-40" = some ⟨"UNKNOWN", "A1", 5, 5, 50, -40⟩ := by
      decide
    rw [h] at hdec
    injection hdec with h2
    subst h2
    decide
  · trivial
  · constructor <;> norm_num

/-! ## C2 — decay is monotone, the Ghost grid never decreases -/

theorem runOp_ghost_le {s : QueenState} (h : ∀ c, s.ghost c ≤ 255) (op : QOp) :
    ∀ c, (runOp s op).ghost c ≤ 255 := by
  cases op with
  | msg p now =>
    intro c
    simp only [runOp]
    cases hdec : decodeDeposit p with
    | none => exact h c
    | some ev =>
      rw [processDeposit_ghost]
      unfold depositGrids
      split
      · rw [depositCell_ghost]
        split
        · exact clamp255_le _
        · exact h c
      · exact h c
  | virtualMove x y =>
    intro c
    simp only [runOp]
    rw [depositCell_ghost]
    split
    · exact clamp255_le _
    · exact h c
  | tick r => exact h

theorem runOp_ghost_mono {s : QueenState} (h : ∀ c, s.ghost c ≤ 255) (op : QOp) :
    ∀ c, s.ghost c ≤ (runOp s op).ghost c := by
  cases op with
  | msg p now =>
    intro c
    simp only [runOp]
    cases hdec : decodeDeposit p with
    | none => exact le_refl _
    | some ev =>
      rw [processDeposit_ghost]
      unfold depositGrids
      split
      · rw [depositCell_ghost]
        split
        · rename_i heq
          rw [heq]
          exact le_clamp255 (h _) (by linarith)
        · exact le_refl _
      · exact le_refl _
  | virtualMove x y =>
    intro c
    simp only [runOp]
    rw [depositCell_ghost]
    split
    · rename_i heq
      rw [heq]
      exact le_clamp255 (h _) (by linarith)
    · exact le_refl _
  | tick r => intro c; exact le_refl _

theorem runOps_ghost_mono {s : QueenState} (h : ∀ c, s.ghost c ≤ 255)
    (ops : List QOp) : ∀ c, s.ghost c ≤ (runOps s ops).ghost c := by
  induction ops generalizing s with
  | nil => intro c; exact le_refl _
  | cons op rest ih =>
    intro c
    exact (runOp_ghost_mono h op c).trans (ih (runOp_ghost_le h op) c)

/-- C2 (confirmed): on any state whose grids are in the spec's domain
(`Active` nonnegative, `Ghost` at most 255): a tick with decay rate < 1
never increases any Active cell, and the Ghost grid is pointwise
non-decreasing under every deposit/tick sequence — `physics_loop` decays
only `hive_grid` and every Ghost write is `+0.5` capped at 255. -/
theorem C2_decay_and_ghost_monotone (s : QueenState)
    (hA : ∀ c, 0 ≤ s.hive c) (hG : ∀ c, s.ghost c ≤ 255) :
    (∀ rate : ℚ, rate < 1 → ∀ c, (runOp s (QOp.tick rate)).hive c ≤ s.hive c) ∧
    (∀ ops : List QOp, ∀ c, s.ghost c ≤ (runOps s ops).ghost c) := by
  constructor
  · intro r hr c
    show s.hive c * r ≤ s.hive c
    nlinarith [hA c]
  · intro ops c
    exact runOps_ghost_mono hG ops c

theorem C2_decay_and_ghost_monotone_witness :
    (runOp initState (QOp.tick (1/2))).hive (3, 4) ≤ initState.hive (3, 4) ∧
    initState.ghost (3, 4) ≤
      (runOps initState [QOp.virtualMove 20 20, QOp.tick (19/20)]).ghost (3, 4) := by
  have h := C2_decay_and_ghost_monotone initState
    (fun c => by norm_num [initState]) (fun c => by norm_num [initState])
  exact ⟨h.1 (1/2) (by norm_num) (3, 4),
         h.2 [QOp.virtualMove 20 20, QOp.tick (19/20)] (3, 4)⟩

/-! ## C3/C4 — the position-override gate and (missing) staleness -/

theorem gravity_count {buf : List (String × List ℤ)} {x y : ℤ} {c : ℕ}
    (h : calculate_gravity_position buf = some (x, y, c)) :
    c = contributingCount buf := by
  simp only [calculate_gravity_position] at h
  split at h
  · rw [Option.some.injEq, Prod.mk.injEq, Prod.mk.injEq] at h
    exact h.2.2.symm
  · cases h

theorem runOp_msg {p : String} {ev : DepositEvent} (t : ℚ) (s : QueenState)
    (h : decodeDeposit p = some ev) :
    runOp s (QOp.msg p t) = processDeposit s ev t := by
  simp [runOp, h]

theorem processDeposit_drones (s : QueenState) (ev : DepositEvent) (now : ℚ) :
    (processDeposit s ev now).drones ev.droneId =
      some ⟨(resolvedPos s ev now).1, (resolvedPos s ev now).2, ev.rssi, now,
        pushTrail (((s.drones ev.droneId).map DroneRec.trail).getD [])
          (resolvedPos s ev now)⟩ := by
  simp only [processDeposit, depositGrids, depositCell]
  split <;> simp

theorem processDeposit_buffers (s : QueenState) (ev : DepositEvent) (now : ℚ) :
    (processDeposit s ev now).buffers ev.droneId = some (bufferAfter s ev now) := by
  simp only [processDeposit, depositGrids, depositCell]
  split <;> simp

theorem resolvedPos_self {s : QueenState} {ev : DepositEvent} {now : ℚ}
    (h : contributingCount (bufferAfter s ev now).sensors < 2) :
    resolvedPos s ev now = (ev.x, ev.y) := by
  unfold resolvedPos
  rw [if_pos (show now - (bufferAfter s ev now).lastUpdate < 2 by
    show now - now < 2; norm_num)]
  cases hg : calculate_gravity_position (bufferAfter s ev now).sensors with
  | none => rfl
  | some v =>
    obtain ⟨tx, ty, c⟩ := v
    have hc := gravity_count hg
    have hc2 : ¬ 2 ≤ c := by omega
    simp [hc2]

/-- C3 (amended): whenever fewer than 2 anchors have samples in the
drone's buffer (whatever their age — the code keeps no per-anchor
timestamps), processing a deposit leaves the agent's self-reported
payload coordinate in the registry: the gravity estimate never overrides
it (`s_count >= 2` gate in `on_message`). -/
theorem C3_anchor_count_gate (s : QueenState) (ev : DepositEvent) (now : ℚ)
    (h : contributingCount (bufferAfter s ev now).sensors < 2) :
    ∃ rec : DroneRec, (processDeposit s ev now).drones ev.droneId = some rec ∧
      rec.x = ev.x ∧ rec.y = ev.y := by
  refine ⟨_, processDeposit_drones s ev now, ?_, ?_⟩ <;>
    rw [resolvedPos_self h]

theorem C3_anchor_count_gate_witness :
    ∃ rec : DroneRec,
      (processDeposit initState ⟨"QUEEN", "A", 20, 20, 50, -50⟩ 0).drones "A" = some rec ∧
      rec.x = 20 ∧ rec.y = 20 :=
  C3_anchor_count_gate initState ⟨"QUEEN", "A", 20, 20, 50, -50⟩ 0
    (by norm_num +decide [contributingCount, gravFold, gravStep, bufferAfter,
      initState, addSensorSample, sensorPosition])

/-- C3 counterexample: a trace on which only 1 of the 2 anchors has been
heard within the last 2 seconds (QUEEN at t = 0, SENTINEL at t = 10),
yet processing the second deposit overrides drone B's self-reported
coordinate (30, 30) with the two-anchor estimate (50, 50): the buffered
QUEEN samples still contribute because the code keeps no per-anchor
timestamp and its only freshness test compares `last_update` with the
clock immediately after setting it. -/
theorem C3_counterexample_stale_anchor :
    freshAnchorCount
      [QOp.msg "QUEEN,B,30,30,40,-60" 0, QOp.msg "SENTINEL,B,30,30,40,-60" 10]
      "B" 10 = 1 ∧
    ∃ rec : DroneRec,
      (runOps initState
        [QOp.msg "QUEEN,B,30,30,40,-60" 0,
         QOp.msg "SENTINEL,B,30,30,40,-60" 10]).drones "B" = some rec ∧
      rec.x = 50 ∧ rec.y = 50 ∧ ¬ (rec.x = 30 ∧ rec.y = 30) := by
  have hd1 : decodeDeposit "QUEEN,B,30,30,40,-60" =
      some ⟨"QUEEN", "B", 30, 30, 40, -60⟩ := by decide
  have hd2 : decodeDeposit "SENTINEL,B,30,30,40,-60" =
      some ⟨"SENTINEL", "B", 30, 30, 40, -60⟩ := by decide
  constructor
  · norm_num +decide [freshAnchorCount, heardWithin2s, earTimes, hd1, hd2,
      List.filterMap]
  · have e1 : runOps initState
        [QOp.msg "QUEEN,B,30,30,40,-60" 0, QOp.msg "SENTINEL,B,30,30,40,-60" 10] =
        processDeposit (processDeposit initState ⟨"QUEEN", "B", 30, 30, 40, -60⟩ 0)
          ⟨"SENTINEL", "B", 30, 30, 40, -60⟩ 10 := by
      simp only [runOps, List.foldl]
      rw [runOp_msg 0 initState hd1, runOp_msg 10 _ hd2]
    have hbuf1 : (processDeposit initState ⟨"QUEEN", "B", 30, 30, 40, -60⟩ 0).buffers "B" =
        some ⟨[("QUEEN", [-60])], 0⟩ := by
      have h := processDeposit_buffers initState ⟨"QUEEN", "B", 30, 30, 40, -60⟩ 0
      simpa +decide [bufferAfter, initState, addSensorSample] using h
    have hbufAfter2 : bufferAfter (processDeposit initState ⟨"QUEEN", "B", 30, 30, 40, -60⟩ 0)
        ⟨"SENTINEL", "B", 30, 30, 40, -60⟩ 10 =
        ⟨[("QUEEN", [-60]), ("SENTINEL", [-60])], 10⟩ := by
      simp +decide [bufferAfter, hbuf1, addSensorSample, pushSample]
    have hgrav2 : calculate_gravity_position [("QUEEN", [(-60 : ℤ)]), ("SENTINEL", [-60])] =
        some (50, 50, 2) := by
      norm_num +decide [calculate_gravity_position, gravFold, gravStep,
        sensorPosition, weightOf, avgRssi, pyInt, Int.floor_eq_iff]
    have hres2 : resolvedPos (processDeposit initState ⟨"QUEEN", "B", 30, 30, 40, -60⟩ 0)
        ⟨"SENTINEL", "B", 30, 30, 40, -60⟩ 10 = (50, 50) := by
      simp only [resolvedPos, hbufAfter2, hgrav2]
      norm_num [GRID_SIZE]
    have hfinal := processDeposit_drones
      (processDeposit initState ⟨"QUEEN", "B", 30, 30, 40, -60⟩ 0)
      ⟨"SENTINEL", "B", 30, 30, 40, -60⟩ 10
    rw [hres2] at hfinal
    rw [e1]
    exact ⟨_, hfinal, rfl, rfl, by norm_num⟩

/-- C4 evaluation at the failing input: drone A is heard via QUEEN at
t = 0 and via SENTINEL at t = 10.  At t = 10 exactly one anchor is fresh
(≤ 2 s old), and the claim says the 10-second-old QUEEN buffer must not
contribute — but both buffered anchors contribute
(`contributingCount = 2`), so the estimate overrides the self-reported
(20, 20) with (50, 50). -/
theorem C4_stale_anchor_contributes :
    freshAnchorCount
      [QOp.msg "QUEEN,A,20,20,50,-50" 0, QOp.msg "SENTINEL,A,20,20,50,-50" 10]
      "A" 10 = 1 ∧
    contributingCount [("QUEEN", [(-50 : ℤ)]), ("SENTINEL", [-50])] = 2 ∧
    ∃ rec : DroneRec,
      (runOps initState
        [QOp.msg "QUEEN,A,20,20,50,-50" 0,
         QOp.msg "SENTINEL,A,20,20,50,-50" 10]).drones "A" = some rec ∧
      rec.x = 50 ∧ rec.y = 50 ∧ ¬ (rec.x = 20 ∧ rec.y = 20) := by
  have hd1 : decodeDeposit "QUEEN,A,20,20,50,-50" =
      some ⟨"QUEEN", "A", 20, 20, 50, -50⟩ := by decide
  have hd2 : decodeDeposit "SENTINEL,A,20,20,50,-50" =
      some ⟨"SENTINEL", "A", 20, 20, 50, -50⟩ := by decide
  refine ⟨?_, ?_, ?_⟩
  · norm_num +decide [freshAnchorCount, heardWithin2s, earTimes, hd1, hd2,
      List.filterMap]
  · norm_num +decide [contributingCount, gravFold, gravStep, sensorPosition]
  · have e1 : runOps initState
        [QOp.msg "QUEEN,A,20,20,50,-50" 0, QOp.msg "SENTINEL,A,20,20,50,-50" 10] =
        processDeposit (processDeposit initState ⟨"QUEEN", "A", 20, 20, 50, -50⟩ 0)
          ⟨"SENTINEL", "A", 20, 20, 50, -50⟩ 10 := by
      simp only [runOps, List.foldl]
      rw [runOp_msg 0 initState hd1, runOp_msg 10 _ hd2]
    have hbuf1 : (processDeposit initState ⟨"QUEEN", "A", 20, 20, 50, -50⟩ 0).buffers "A" =
        some ⟨[("QUEEN", [-50])], 0⟩ := by
      have h := processDeposit_buffers initState ⟨"QUEEN", "A", 20, 20, 50, -50⟩ 0
      simpa +decide [bufferAfter, initState, addSensorSample] using h
    have hbufAfter2 : bufferAfter (processDeposit initState ⟨"QUEEN", "A", 20, 20, 50, -50⟩ 0)
        ⟨"SENTINEL", "A", 20, 20, 50, -50⟩ 10 =
        ⟨[("QUEEN", [-50]), ("SENTINEL", [-50])], 10⟩ := by
      simp +decide [bufferAfter, hbuf1, addSensorSample, pushSample]
    have hgrav2 : calculate_gravity_position [("QUEEN", [(-50 : ℤ)]), ("SENTINEL", [-50])] =
        some (50, 50, 2) := by
      norm_num +decide [calculate_gravity_position, gravFold, gravStep,
        sensorPosition, weightOf, avgRssi, pyInt, Int.floor_eq_iff]
    have hres2 : resolvedPos (processDeposit initState ⟨"QUEEN", "A", 20, 20, 50, -50⟩ 0)
        ⟨"SENTINEL", "A", 20, 20, 50, -50⟩ 10 = (50, 50) := by
      simp only [resolvedPos, hbufAfter2, hgrav2]
      norm_num [GRID_SIZE]
    have hfinal := processDeposit_drones
      (processDeposit initState ⟨"QUEEN", "A", 20, 20, 50, -50⟩ 0)
      ⟨"SENTINEL", "A", 20, 20, 50, -50⟩ 10
    rw [hres2] at hfinal
    rw [e1]
    exact ⟨_, hfinal, rfl, rfl, by norm_num⟩

/-! ## C5 — equal average RSSI yields the anchor midpoint -/

/-- C5 (confirmed): with both anchors present and reporting equal
average RSSI (and nothing else in the buffer), the gravity estimate is
exactly the midpoint (50, 50) of the QUEEN–SENTINEL segment: the two
clamped weights are equal and positive, so the weighted centroid is the
arithmetic mean of (10, 10) and (90, 90). -/
theorem C5_equal_rssi_midpoint (qs ss : List ℤ) (hq : qs ≠ []) (hs : ss ≠ [])
    (h : avgRssi qs = avgRssi ss) :
    calculate_gravity_position [("QUEEN", qs), ("SENTINEL", ss)] = some (50, 50, 2) := by
  have hw : weightOf qs = weightOf ss := by unfold weightOf; rw [h]
  have hwpos : 0 < weightOf ss := weightOf_pos ss
  have hacc : gravFold [("QUEEN", qs), ("SENTINEL", ss)] =
      ⟨2 * weightOf ss, 100 * weightOf ss, 100 * weightOf ss, 2⟩ := by
    simp +decide only [gravFold, List.foldl, gravStep, sensorPosition, hq, hs, hw,
      GravAcc.mk.injEq]
    push_cast
    ring_nf
  simp only [calculate_gravity_position, hacc]
  rw [if_pos ⟨by linarith, by norm_num⟩]
  have hdiv : (100 * weightOf ss) / (2 * weightOf ss) = (50 : ℚ) := by
    field_simp
    ring
  rw [hdiv, show (50 : ℚ) = ((50 : ℤ) : ℚ) by norm_num, pyInt_intCast]

theorem C5_equal_rssi_midpoint_witness :
    calculate_gravity_position [("QUEEN", [-50]), ("SENTINEL", [-50, -50])] =
      some (50, 50, 2) :=
  C5_equal_rssi_midpoint [-50] [-50, -50] (by decide) (by decide)
    (by norm_num [avgRssi])

/-! ## C10 — every estimate lies in the anchors' bounding box -/

theorem sensorPosition_bounds {s : String} {px py : ℤ}
    (h : sensorPosition s = some (px, py)) :
    (10 ≤ px ∧ px ≤ 90) ∧ (10 ≤ py ∧ py ≤ 90) := by
  unfold sensorPosition at h
  split at h
  · rw [Option.some.injEq, Prod.mk.injEq] at h
    omega
  · split at h
    · rw [Option.some.injEq, Prod.mk.injEq] at h
      omega
    · cases h

theorem accOK_step {a : GravAcc} (ha : accOK a) (e : String × List ℤ) :
    accOK (gravStep a e) := by
  unfold gravStep
  cases hsp : sensorPosition e.1 with
  | none => exact ha
  | some pq =>
    obtain ⟨px, py⟩ := pq
    dsimp only
    split
    · exact ha
    · obtain ⟨⟨hx1, hx2⟩, hy1, hy2⟩ := sensorPosition_bounds hsp
      obtain ⟨h0, h1, h2, h3, h4⟩ := ha
      have hw := weightOf_pos e.2
      have hpx1 : (10 : ℚ) * weightOf e.2 ≤ (px : ℚ) * weightOf e.2 :=
        mul_le_mul_of_nonneg_right (by exact_mod_cast hx1) hw.le
      have hpx2 : (px : ℚ) * weightOf e.2 ≤ 90 * weightOf e.2 :=
        mul_le_mul_of_nonneg_right (by exact_mod_cast hx2) hw.le
      have hpy1 : (10 : ℚ) * weightOf e.2 ≤ (py : ℚ) * weightOf e.2 :=
        mul_le_mul_of_nonneg_right (by exact_mod_cast hy1) hw.le
      have hpy2 : (py : ℚ) * weightOf e.2 ≤ 90 * weightOf e.2 :=
        mul_le_mul_of_nonneg_right (by exact_mod_cast hy2) hw.le
      exact ⟨by dsimp only; linarith, by dsimp only; linarith,
        by dsimp only; linarith, by dsimp only; linarith, by dsimp only; linarith⟩

theorem accOK_fold (buf : List (String × List ℤ)) : accOK (gravFold buf) := by
  suffices h : ∀ a, accOK a → accOK (List.foldl gravStep a buf) by
    exact h _ (by norm_num [accOK])
  induction buf with
  | nil => intro a ha; exact ha
  | cons e rest ih => intro a ha; exact ih _ (accOK_step ha e)

/-- C10 (confirmed): whenever the gravity estimator returns an estimate,
the returned coordinates lie in the axis-aligned bounding box
`[10, 90] × [10, 90]` of the two configured anchors: every clamped
weight is positive, so the centroid is a convex combination of anchor
coordinates, and `int(...)` truncation stays inside the box. -/
theorem C10_estimate_in_bounding_box (buf : List (String × List ℤ))
    (x y : ℤ) (c : ℕ) (h : calculate_gravity_position buf = some (x, y, c)) :
    10 ≤ x ∧ x ≤ 90 ∧ 10 ≤ y ∧ y ≤ 90 := by
  simp only [calculate_gravity_position] at h
  split at h
  case isTrue hguard =>
    obtain ⟨htw, -⟩ := hguard
    obtain ⟨h0, h1, h2, h3, h4⟩ := accOK_fold buf
    rw [Option.some.injEq, Prod.mk.injEq, Prod.mk.injEq] at h
    obtain ⟨hx, hy, -⟩ := h
    have qx1 : (10 : ℚ) ≤ (gravFold buf).wSumX / (gravFold buf).totalWeight :=
      (le_div_iff₀ htw).mpr (by linarith)
    have qx2 : (gravFold buf).wSumX / (gravFold buf).totalWeight ≤ 90 :=
      (div_le_iff₀ htw).mpr (by linarith)
    have qy1 : (10 : ℚ) ≤ (gravFold buf).wSumY / (gravFold buf).totalWeight :=
      (le_div_iff₀ htw).mpr (by linarith)
    have qy2 : (gravFold buf).wSumY / (gravFold buf).totalWeight ≤ 90 :=
      (div_le_iff₀ htw).mpr (by linarith)
    refine ⟨?_, ?_, ?_, ?_⟩
    · rw [← hx]
      exact le_pyInt (by linarith) (by push_cast; linarith)
    · rw [← hx]
      exact pyInt_le (by linarith) (by push_cast; linarith)
    · rw [← hy]
      exact le_pyInt (by linarith) (by push_cast; linarith)
    · rw [← hy]
      exact pyInt_le (by linarith) (by push_cast; linarith)
  case isFalse => cases h

theorem C10_estimate_in_bounding_box_witness :
    (10 : ℤ) ≤ 10 ∧ (10 : ℤ) ≤ 90 ∧ (10 : ℤ) ≤ 10 ∧ (10 : ℤ) ≤ 90 :=
  C10_estimate_in_bounding_box [("QUEEN", [-50])] 10 10 1
    (by norm_num +decide [calculate_gravity_position, gravFold, gravStep,
      sensorPosition, weightOf, avgRssi, pyInt, Int.floor_eq_iff])

/-! ## C6 — which payload field counts the decoder accepts -/

/-- C6 counterexample: the decoder drops 3-field and 4-field payloads
(`on_message` only dispatches on 5 or 6 fields and `return`s otherwise),
contradicting the claim that `x,y,intensity` and `x,y,intensity,rssi`
layouts are accepted. -/
theorem C6_counterexample_short_payloads :
    decodeDeposit "5,5,50" = none ∧ decodeDeposit "5,5,50,-40" = none := by
  constructor <;> decide

/-- C6 (amended): the decoder dispatches purely on field count, but the
accepted layouts are 5 fields (`agentId, x, y, intensity, rssi`, with
anchor id defaulted to `"UNKNOWN"`) and 6 fields
(`anchorId, agentId, x, y, intensity, rssi`); every other field count is
dropped. -/
theorem C6_field_count_decoder :
    (∀ (e d sx sy si sr : List Char) (x y i r : ℤ),
        pyParseInt sx = some x → pyParseInt sy = some y →
        pyParseInt si = some i → pyParseInt sr = some r →
        decodeParts [d, sx, sy, si, sr] = some ⟨"UNKNOWN", ⟨d⟩, x, y, i, r⟩ ∧
        decodeParts [e, d, sx, sy, si, sr] = some ⟨⟨e⟩, ⟨d⟩, x, y, i, r⟩) ∧
    (∀ parts : List (List Char), parts.length ≠ 5 → parts.length ≠ 6 →
        decodeParts parts = none) := by
  constructor
  · intro e d sx sy si sr x y i r hx hy hi hr
    constructor <;> simp [decodeParts, hx, hy, hi, hr]
  · intro parts h5 h6
    match parts with
    | [] => rfl
    | [_] => rfl
    | [_, _] => rfl
    | [_, _, _] => rfl
    | [_, _, _, _] => rfl
    | [_, _, _, _, _] => simp at h5
    | [_, _, _, _, _, _] => simp at h6
    | _ :: _ :: _ :: _ :: _ :: _ :: _ :: _ => rfl

theorem C6_field_count_decoder_witness :
    decodeParts ["A1".data, "5".data, "6".data, "50".data, "-40".data] =
      some ⟨"UNKNOWN", ⟨"A1".data⟩, 5, 6, 50, -40⟩ ∧
    decodeParts ["QUEEN".data, "A1".data, "5".data, "6".data, "50".data, "-40".data] =
      some ⟨⟨"QUEEN".data⟩, ⟨"A1".data⟩, 5, 6, 50, -40⟩ :=
  C6_field_count_decoder.1 "QUEEN".data "A1".data "5".data "6".data "50".data
    "-40".data 5 6 50 (-40) (by decide) (by decide) (by decide) (by decide)

/-! ## C7 — no weak-link deposit penalty exists -/

/-- C7 counterexample: a deposit with raw RSSI −90 (« very weak link »)
and intensity 100 adds the full `100 / 10 = 10` to the Active cell, not
the claimed 50%-penalized 5: `on_message` computes
`hive_grid[x][y] += intensity / 10.0` with no RSSI test anywhere. -/
theorem C7_counterexample_weak_link :
    (runOps initState [QOp.msg "A,5,5,100,-90" 0]).hive (5, 5) = 10 ∧
    ¬ ((runOps initState [QOp.msg "A,5,5,100,-90" 0]).hive (5, 5) = 5) := by
  have hdec : decodeDeposit "A,5,5,100,-90" = some ⟨"UNKNOWN", "A", 5, 5, 100, -90⟩ := by
    decide
  have hgrav : calculate_gravity_position [("UNKNOWN", [(-90 : ℤ)])] = none := by
    norm_num +decide [calculate_gravity_position, gravFold, gravStep, sensorPosition]
  have hpos : resolvedPos initState ⟨"UNKNOWN", "A", 5, 5, 100, -90⟩ 0 = (5, 5) := by
    norm_num [resolvedPos, bufferAfter, initState, addSensorSample, hgrav]
  constructor <;>
  · simp only [runOps, List.foldl, runOp, hdec]
    rw [processDeposit_hive, hpos]
    norm_num [depositGrids, depositCell, clamp255, GRID_SIZE, initState]

/-- C7 (amended): for every accepted deposit event, the amount added to
the Active grid at the resolved cell is `intensity / 10` clamped at 255,
for every raw RSSI value — no weak-link penalty is applied (the formula
does not mention the RSSI at all). -/
theorem C7_deposit_amount_unpenalized (s : QueenState) (ev : DepositEvent)
    (now : ℚ)
    (h : 0 ≤ (resolvedPos s ev now).1 ∧ (resolvedPos s ev now).1 < GRID_SIZE ∧
         0 ≤ (resolvedPos s ev now).2 ∧ (resolvedPos s ev now).2 < GRID_SIZE) :
    (processDeposit s ev now).hive (resolvedPos s ev now) =
      clamp255 (s.hive (resolvedPos s ev now) + (ev.intensity : ℚ) / 10) := by
  rw [processDeposit_hive]
  unfold depositGrids
  rw [if_pos h, depositCell_hive, if_pos rfl]

theorem C7_deposit_amount_unpenalized_witness :
    (processDeposit initState ⟨"UNKNOWN", "A", 7, 8, 30, -90⟩ 0).hive
        (resolvedPos initState ⟨"UNKNOWN", "A", 7, 8, 30, -90⟩ 0) =
      clamp255 (initState.hive
        (resolvedPos initState ⟨"UNKNOWN", "A", 7, 8, 30, -90⟩ 0) +
        ((30 : ℤ) : ℚ) / 10) := by
  have hgrav : calculate_gravity_position [("UNKNOWN", [(-90 : ℤ)])] = none := by
    norm_num +decide [calculate_gravity_position, gravFold, gravStep, sensorPosition]
  have hpos : resolvedPos initState ⟨"UNKNOWN", "A", 7, 8, 30, -90⟩ 0 = (7, 8) := by
    norm_num [resolvedPos, bufferAfter, initState, addSensorSample, hgrav]
  exact C7_deposit_amount_unpenalized initState ⟨"UNKNOWN", "A", 7, 8, 30, -90⟩ 0
    (by rw [hpos]; norm_num [GRID_SIZE])

/-! ## C8 — carrying drones and the distance to the queen -/

/-- C8 counterexample: the 10% random perturbation of
`calculate_movement` can turn the pure-pursuit step into a sideways one.
A carrying drone at (10, 50) — directly above the queen — whose jitter
draw is (1, 1) moves to (11, 50): it moved, but its (squared) distance
to the queen grew from 1600 to 1601, refuting the strict decrease. -/
theorem C8_counterexample_random_jitter :
    updateCarryingPos [] (10, 50) (some (1, 1)) = (11, 50) ∧
    updateCarryingPos [] (10, 50) (some (1, 1)) ≠ (10, 50) ∧
    ¬ (distSq (updateCarryingPos [] (10, 50) (some (1, 1))) queenPos <
        distSq ((10 : ℤ), (50 : ℤ)) queenPos) := by
  refine ⟨?_, ?_, ?_⟩ <;> decide

theorem carryingStep_no_jitter {x y : ℤ} (hx1 : 10 ≤ x) (hy1 : 10 ≤ y) :
    carryingStep (x, y) none =
      ((if 10 < x then -1 else 0), (if 10 < y then -1 else 0)) := by
  simp only [carryingStep, signZ, queenPos, Prod.mk.injEq]
  constructor <;> split_ifs <;> omega

/-- C8 (amended): on every tick whose 10% random perturbation does not
fire, a carrying FEED_QUEEN drone inside the operational boundary that
moves strictly decreases its (squared, hence Euclidean) distance to the
queen anchor — including when the food-footprint rule downgrades the step
to an x-only or y-only sub-move.  With the perturbation the distance can
grow (see the counterexample), so the claim holds only for unperturbed
ticks. -/
theorem C8_carrying_approaches_queen (foods : List FoodSource) (p : ℤ × ℤ)
    (hx : 10 ≤ p.1 ∧ p.1 ≤ 90) (hy : 10 ≤ p.2 ∧ p.2 ≤ 90)
    (hmove : updateCarryingPos foods p none ≠ p) :
    distSq (updateCarryingPos foods p none) queenPos < distSq p queenPos := by
  obtain ⟨x, y⟩ := p
  obtain ⟨hx1, hx2⟩ := hx
  obtain ⟨hy1, hy2⟩ := hy
  dsimp only at hx1 hx2 hy1 hy2
  revert hmove
  have hstep := carryingStep_no_jitter hx1 hy1
  have hcx : clampMargin (x + (if 10 < x then -1 else 0)) =
      x + (if 10 < x then -1 else 0) := by
    unfold clampMargin; split_ifs <;> omega
  have hcy : clampMargin (y + (if 10 < y then -1 else 0)) =
      y + (if 10 < y then -1 else 0) := by
    unfold clampMargin; split_ifs <;> omega
  unfold updateCarryingPos
  rw [hstep]
  dsimp only
  rw [hcx, hcy]
  split_ifs <;> intro hmove <;>
    first
      | (exfalso; apply hmove; norm_num; done)
      | (simp only [distSq, queenPos]; nlinarith)

theorem C8_carrying_approaches_queen_witness :
    distSq (updateCarryingPos [] ((20 : ℤ), (30 : ℤ)) none) queenPos <
      distSq ((20 : ℤ), (30 : ℤ)) queenPos :=
  C8_carrying_approaches_queen [] (20, 30) (by norm_num) (by norm_num) (by decide)

/-! ## C9 — respawn at the queen with full hunger and same role -/

/-- C9 (confirmed): under `death_mode = "respawn"`, every drone whose
hunger has reached 0 is replaced within the same tick by a record at the
queen anchor plus a jitter of at most 2 cells per axis, with hunger 100,
the same role, and the role's default state (`scouting` for hoppers,
`searching` for workers). -/
theorem C9_respawn_at_queen (ds : List (String × SimDrone)) (j : String → ℤ × ℤ)
    (hj : ∀ k, -2 ≤ (j k).1 ∧ (j k).1 ≤ 2 ∧ -2 ≤ (j k).2 ∧ (j k).2 ≤ 2)
    (i : String) (d : SimDrone) (hmem : (i, d) ∈ ds) (hdead : d.hunger ≤ 0) :
    ∃ d' : SimDrone, (i, d') ∈ respawnPhase ds j ∧
      d'.hunger = 100 ∧ d'.type = d.type ∧ d'.state = defaultState d.type ∧
      queenPos.1 - 2 ≤ d'.x ∧ d'.x ≤ queenPos.1 + 2 ∧
      queenPos.2 - 2 ≤ d'.y ∧ d'.y ≤ queenPos.2 + 2 := by
  obtain ⟨a, b, c, e⟩ := hj i
  refine ⟨respawnDrone d (j i).1 (j i).2, ?_, rfl, rfl, rfl, ?_, ?_, ?_, ?_⟩
  · unfold respawnPhase
    refine List.mem_map.mpr ⟨(i, d), hmem, ?_⟩
    simp [hdead]
  · simp only [respawnDrone, queenPos]; omega
  · simp only [respawnDrone, queenPos]; omega
  · simp only [respawnDrone, queenPos]; omega
  · simp only [respawnDrone, queenPos]; omega

theorem C9_respawn_at_queen_witness :
    ∃ d' : SimDrone,
      ("S-000", d') ∈ respawnPhase
        [("S-000", ⟨15, 15, 0, 0, 0, 100, "worker", "searching", 0, none⟩)]
        (fun _ => (1, -2)) ∧
      d'.hunger = 100 ∧
      d'.type = (⟨15, 15, 0, 0, 0, 100, "worker", "searching", 0, none⟩ : SimDrone).type ∧
      d'.state = defaultState
        (⟨15, 15, 0, 0, 0, 100, "worker", "searching", 0, none⟩ : SimDrone).type ∧
      queenPos.1 - 2 ≤ d'.x ∧ d'.x ≤ queenPos.1 + 2 ∧
      queenPos.2 - 2 ≤ d'.y ∧ d'.y ≤ queenPos.2 + 2 :=
  C9_respawn_at_queen
    [("S-000", ⟨15, 15, 0, 0, 0, 100, "worker", "searching", 0, none⟩)]
    (fun _ => (1, -2)) (fun _ => by norm_num) "S-000"
    ⟨15, 15, 0, 0, 0, 100, "worker", "searching", 0, none⟩
    (List.mem_singleton.mpr rfl) (by norm_num)

end SlimeHive
